import Mathlib

/-!
Verification of the FFXL-P feature-flag evaluation engine.

The repository ships two evaluation surfaces:
- `ffxl.py` (under src): feature existence, user allow-lists and the global
  enabled flag.  Its functions are embedded below under the namespace
  `Ffxl`, translated statement by statement from the Python source.
- the `ffxl_p` rollout engine: its caller `example_rollout.py` is in the
  repository, but the module implementing percentage rollout, environment
  gating and bucket assignment is not under src.  Those parts are modelled
  from the specification (section 4 of spec.md) under the namespace
  `FfxlP`, each such definition marked in its doc comment.
-/

namespace Ffxl

/-- A rollout rule: a percentage in the range 0 to 100. -/
structure Rollout where
  percentage : Nat
deriving DecidableEq, Repr

/-- One feature definition, the parsed shape of one entry of the
configuration mapping.  Each field mirrors one optional key of the Python
feature dict: a key that may be missing is an Option. -/
structure Feature where
  enabled : Option Bool
  onlyForUserIds : Option (List String)
  environments : Option (List String)
  rollout : Option Rollout
deriving DecidableEq, Repr

/-- A configuration snapshot: the mapping from feature name to feature
definition, as an association list with the dict lookup on top. -/
structure Config where
  features : List (String × Feature)
deriving DecidableEq, Repr

/-- Dict lookup on the features mapping: the first entry with the given
key, as Python dict indexing behaves for unique keys. -/
def lookupFeature (cfg : Config) (name : String) : Option Feature :=
  (cfg.features.find? (fun p => p.1 = name)).map Prod.snd

/-- Embeds the `user` argument of the Python API: None, a `User`
dataclass instance, a dict, or a value of any other type carrying only
its Python truthiness. -/
inductive UserArg where
  | noUser : UserArg
  | user (userId : String) : UserArg
  | dict (entries : List (String × String)) : UserArg
  | other (truthy : Bool) : UserArg
deriving DecidableEq, Repr

/-- The identity extraction of `is_feature_enabled` (src/ffxl.py lines
58 to 64): `user_id = None`, then under `if user:` a `User` instance
yields its `user_id` field, a dict yields its entry under the key
`user_id` when present; every other case leaves `user_id = None`.
An empty dict is falsy in Python, and also has no `user_id` key, so both
readings give None. -/
def extractUserId : UserArg → Option String
  | .noUser => none
  | .user uid => some uid
  | .dict entries => (entries.find? (fun p => p.1 = "user_id")).map Prod.snd
  | .other _ => none

/-- Membership of an optional user id in an allow-list: Python evaluates
`user_id in only_for_users`, and `None` is never equal to a string. -/
def uidMember (uid : Option String) (l : List String) : Bool :=
  match uid with
  | some u => l.contains u
  | none => false

/-- The per-feature body of `is_feature_enabled` (src/ffxl.py lines
66 to 76): if `onlyForUserIds` is present and truthy (a non-empty list),
the result is allow-list membership of the extracted user id; otherwise
the result is the feature dict entry under the key enabled, with the
Python default False when the key is missing. -/
def featureEnabledFor (f : Feature) (uid : Option String) : Bool :=
  match f.onlyForUserIds with
  | some l => if !l.isEmpty then uidMember uid l else f.enabled.getD false
  | none => f.enabled.getD false

/-- `feature_exists` (src/ffxl.py lines 150 to 160): membership of the
name in the features mapping of the configuration; a configuration
without a features key behaves as an empty mapping, which the list
model carries as the empty list. -/
def feature_exists (cfg : Config) (name : String) : Bool :=
  (lookupFeature cfg name).isSome

/-- `is_feature_enabled` (src/ffxl.py lines 37 to 76): False for a
feature that does not exist, otherwise the per-feature rule applied to
the extracted user id. -/
def is_feature_enabled (cfg : Config) (name : String) (user : UserArg) : Bool :=
  match lookupFeature cfg name with
  | none => false
  | some f => featureEnabledFor f (extractUserId user)

/-- `is_any_feature_enabled` (src/ffxl.py lines 78 to 93):
`any(self.is_feature_enabled(name, user) for name in feature_names)`. -/
def is_any_feature_enabled (cfg : Config) (names : List String) (user : UserArg) : Bool :=
  names.any (fun name => is_feature_enabled cfg name user)

/-- `are_all_features_enabled` (src/ffxl.py lines 95 to 110):
`all(self.is_feature_enabled(name, user) for name in feature_names)`. -/
def are_all_features_enabled (cfg : Config) (names : List String) (user : UserArg) : Bool :=
  names.all (fun name => is_feature_enabled cfg name user)

/-- Insertion into a Python dict held as an association list: an existing
key is updated in place, a new key is appended, preserving insertion
order of keys. -/
def insertDict (d : List (String × Bool)) (k : String) (v : Bool) :
    List (String × Bool) :=
  if d.any (fun p => p.1 = k) then
    d.map (fun p => if p.1 = k then (k, v) else p)
  else
    d ++ [(k, v)]

/-- `get_feature_flags` (src/ffxl.py lines 130 to 148): the dict
comprehension mapping each requested name to its enabled status,
keys in input order. -/
def get_feature_flags (cfg : Config) (names : List String) (user : UserArg) :
    List (String × Bool) :=
  names.foldl (fun d name => insertDict d name (is_feature_enabled cfg name user)) []

end Ffxl

namespace FfxlP

/-- The reason codes of the Rule Evaluator (spec section 4.2). -/
inductive Reason where
  | FEATURE_NOT_FOUND : Reason
  | USER_ALLOWLIST : Reason
  | ENVIRONMENT_MISMATCH : Reason
  | ROLLOUT_NO_USER : Reason
  | ROLLOUT_BUCKET : Reason
  | GLOBAL_FLAG : Reason
deriving DecidableEq, Repr

/-- The evaluation context (spec section 3): an optional user identity
and an optional deployment environment tag. -/
structure EvalContext where
  userId : Option String
  environment : Option String
deriving DecidableEq, Repr

/-- Modelled from the spec: the 32-bit FNV-1a style hash named in spec
section 4.1 as an acceptable fixed choice for the ffxl_p bucket
assignment, absent from src.  It folds the code points of the input
through xor and multiplication by the FNV prime, truncated to 32 bits
at each step; pure, total and deterministic by construction. -/
def fnv1a (s : String) : Nat :=
  s.data.foldl (fun h c => ((h ^^^ c.toNat) * 16777619) % 4294967296) 2166136261

/-- Modelled from the spec: the Bucket Assignment Function of the ffxl_p
module, absent from src (spec section 4.1).  It combines the feature
name and the user id with a `::` separator, hashes the combination with
a fixed well-distributed hash and reduces modulo 100, yielding an
integer in the range 0 to 99. -/
def bucket (featureName userId : String) : Nat :=
  fnv1a (featureName ++ "::" ++ userId) % 100

/-- Whether the allow-list branch applies to a definition:
`onlyForUserIds` present and non-empty (spec section 4.2 rule 1). -/
def allowListActive (f : Ffxl.Feature) : Bool :=
  match f.onlyForUserIds with
  | some l => !l.isEmpty
  | none => false

/-- Whether the allow-list branch applies and matches the given
optional user id. -/
def allowMatch (f : Ffxl.Feature) (uid : Option String) : Bool :=
  allowListActive f && Ffxl.uidMember uid (f.onlyForUserIds.getD [])

/-- Whether the environment gate blocks the context: `environments`
present and non-empty while the context environment is absent or not a
member (spec section 4.2 rule 2). -/
def envGateBlocks (f : Ffxl.Feature) (ctx : EvalContext) : Bool :=
  match f.environments with
  | some es =>
    !es.isEmpty &&
      (match ctx.environment with
       | some e => !es.contains e
       | none => true)
  | none => false

/-- Modelled from the spec: the Rule Evaluator of the ffxl_p module,
absent from src; only its caller example_rollout.py is in the
repository.  Precedence per spec section 4.2, first match wins:
allow-list, environment gate, rollout (fail-closed without identity,
else bucket below percentage), global flag. -/
def evaluate (name : String) (f : Ffxl.Feature) (ctx : EvalContext) :
    Bool × Reason :=
  if allowListActive f then
    (Ffxl.uidMember ctx.userId (f.onlyForUserIds.getD []), .USER_ALLOWLIST)
  else if envGateBlocks f ctx then
    (false, .ENVIRONMENT_MISMATCH)
  else
    match f.rollout with
    | some r =>
      match ctx.userId with
      | none => (false, .ROLLOUT_NO_USER)
      | some u => (decide (bucket name u < r.percentage), .ROLLOUT_BUCKET)
    | none => (f.enabled.getD false, .GLOBAL_FLAG)

/-- Modelled from the spec: the single-feature facade of the ffxl_p
module over a configuration snapshot: an unknown feature name resolves
to false with reason FEATURE_NOT_FOUND, a known one is handed to the
Rule Evaluator (spec sections 4.2 and 4.3). -/
def evaluateName (cfg : Ffxl.Config) (name : String) (ctx : EvalContext) :
    Bool × Reason :=
  match Ffxl.lookupFeature cfg name with
  | none => (false, .FEATURE_NOT_FOUND)
  | some f => evaluate name f ctx

end FfxlP

/-- C1: for every feature definition with a rollout rule and every context
with a known userId, the environment gate passing and the allow-list
branch inactive, evaluation returns exactly the comparison
bucket(featureName, userId) < rollout.percentage; and bucket is a total
function into the range 0 to 99 (it is deterministic because it is a pure
function of its two string arguments). -/
theorem rollout_follows_bucket (name : String) (f : Ffxl.Feature)
    (ctx : FfxlP.EvalContext) (r : Ffxl.Rollout) (u : String)
    (hr : f.rollout = some r) (hu : ctx.userId = some u)
    (ha : FfxlP.allowListActive f = false)
    (he : FfxlP.envGateBlocks f ctx = false) :
    (FfxlP.evaluate name f ctx).1 = decide (FfxlP.bucket name u < r.percentage)
      ∧ ∀ n v : String, FfxlP.bucket n v < 100 := by
  constructor
  · simp only [FfxlP.evaluate, ha, he, hr, hu, Bool.false_eq_true, if_false]
  · intro n v
    unfold FfxlP.bucket
    exact Nat.mod_lt _ (by norm_num)

/-- Witness for C1 at a concrete feature and context. -/
theorem rollout_follows_bucket_witness :
    (FfxlP.evaluate "new_payment_system"
        ⟨none, none, none, some ⟨50⟩⟩ ⟨some "user-1", none⟩).1
      = decide (FfxlP.bucket "new_payment_system" "user-1" < 50)
      ∧ ∀ n v : String, FfxlP.bucket n v < 100 :=
  rollout_follows_bucket "new_payment_system" ⟨none, none, none, some ⟨50⟩⟩
    ⟨some "user-1", none⟩ ⟨50⟩ "user-1" rfl rfl rfl rfl

/-- C2: when the environments set is present and non-empty and the context
environment is absent or not a member, and the allow-list branch did not
match, evaluation returns false with reason ENVIRONMENT_MISMATCH,
whatever the enabled flag and rollout rule are. -/
theorem environment_gate_fail_closed (name : String) (f : Ffxl.Feature)
    (ctx : FfxlP.EvalContext) (es : List String)
    (hes : f.environments = some es) (hne : es ≠ [])
    (henv : ∀ e, ctx.environment = some e → es.contains e = false)
    (ha : FfxlP.allowListActive f = false) :
    FfxlP.evaluate name f ctx = (false, FfxlP.Reason.ENVIRONMENT_MISMATCH) := by
  have hblock : FfxlP.envGateBlocks f ctx = true := by
    unfold FfxlP.envGateBlocks
    rw [hes]
    cases hc : ctx.environment with
    | none => simp [List.isEmpty_iff, hne]
    | some e =>
      have h2 : e ∉ es := by simpa using henv e hc
      simp [List.isEmpty_iff, hne, h2]
  simp only [FfxlP.evaluate, ha, hblock, Bool.false_eq_true, if_false, if_true]

/-- Witness for C2 at a concrete feature and context. -/
theorem environment_gate_fail_closed_witness :
    FfxlP.evaluate "redesigned_ui"
        ⟨some true, none, some ["staging", "production"], some ⟨100⟩⟩
        ⟨some "user-789", some "dev"⟩
      = (false, FfxlP.Reason.ENVIRONMENT_MISMATCH) :=
  environment_gate_fail_closed "redesigned_ui"
    ⟨some true, none, some ["staging", "production"], some ⟨100⟩⟩
    ⟨some "user-789", some "dev"⟩ ["staging", "production"]
    rfl (by decide) (by intro e he; cases he; decide) rfl

/-- C3: a feature with a rollout rule evaluates to false for every
context without a userId; in particular, when the allow-list branch is
inactive and the environment gate passes, the result is false with
reason ROLLOUT_NO_USER, whatever the enabled flag is. -/
theorem rollout_no_user_fail_closed (name : String) (f : Ffxl.Feature)
    (ctx : FfxlP.EvalContext) (r : Ffxl.Rollout)
    (hr : f.rollout = some r) (hu : ctx.userId = none) :
    (FfxlP.evaluate name f ctx).1 = false
      ∧ (FfxlP.allowListActive f = false → FfxlP.envGateBlocks f ctx = false →
          FfxlP.evaluate name f ctx = (false, FfxlP.Reason.ROLLOUT_NO_USER)) := by
  constructor
  · unfold FfxlP.evaluate
    by_cases hA : FfxlP.allowListActive f = true
    · simp [hA, Ffxl.uidMember, hu]
    · simp only [Bool.not_eq_true] at hA
      by_cases hE : FfxlP.envGateBlocks f ctx = true
      · simp [hA, hE]
      · simp only [Bool.not_eq_true] at hE
        simp [hA, hE, hr, hu]
  · intro hA hE
    simp only [FfxlP.evaluate, hA, hE, hr, hu, Bool.false_eq_true, if_false]

/-- Witness for C3 at a concrete feature and context. -/
theorem rollout_no_user_fail_closed_witness :
    (FfxlP.evaluate "new_payment_system"
        ⟨some true, none, none, some ⟨100⟩⟩ ⟨none, some "production"⟩).1 = false
      ∧ (FfxlP.allowListActive ⟨some true, none, none, some ⟨100⟩⟩ = false →
          FfxlP.envGateBlocks ⟨some true, none, none, some ⟨100⟩⟩
            ⟨none, some "production"⟩ = false →
          FfxlP.evaluate "new_payment_system"
              ⟨some true, none, none, some ⟨100⟩⟩ ⟨none, some "production"⟩
            = (false, FfxlP.Reason.ROLLOUT_NO_USER)) :=
  rollout_no_user_fail_closed "new_payment_system"
    ⟨some true, none, none, some ⟨100⟩⟩ ⟨none, some "production"⟩ ⟨100⟩ rfl rfl

/-- C4: a feature whose onlyForUserIds is present and non-empty is
enabled exactly when the extracted userId is a member of that list, and
disabled when the identity is absent, whatever the enabled flag, the
environments set and the rollout rule of the definition are (those
fields are universally quantified inside f and never consulted). -/
theorem allowlist_overrides (cfg : Ffxl.Config) (name : String)
    (f : Ffxl.Feature) (l : List String) (user : Ffxl.UserArg)
    (hf : Ffxl.lookupFeature cfg name = some f)
    (hl : f.onlyForUserIds = some l) (hne : l ≠ []) :
    (Ffxl.is_feature_enabled cfg name user = true
        ↔ ∃ u, Ffxl.extractUserId user = some u ∧ u ∈ l)
      ∧ (Ffxl.extractUserId user = none →
          Ffxl.is_feature_enabled cfg name user = false) := by
  have hbody : Ffxl.is_feature_enabled cfg name user
      = Ffxl.uidMember (Ffxl.extractUserId user) l := by
    simp [Ffxl.is_feature_enabled, hf, Ffxl.featureEnabledFor, hl,
      List.isEmpty_iff, hne]
  constructor
  · rw [hbody]
    cases hu : Ffxl.extractUserId user with
    | none => simp [Ffxl.uidMember]
    | some u => simp [Ffxl.uidMember]
  · intro hu
    rw [hbody, hu]
    rfl

/-- Witness for C4: the admin_panel scenario of the spec, at a user in
the list and one outside it is covered by the membership equivalence. -/
theorem allowlist_overrides_witness :
    (Ffxl.is_feature_enabled
          ⟨[("admin_panel", ⟨some true, some ["user-123"], none, some ⟨0⟩⟩)]⟩
          "admin_panel" (Ffxl.UserArg.user "user-123") = true
        ↔ ∃ u, Ffxl.extractUserId (Ffxl.UserArg.user "user-123") = some u
            ∧ u ∈ ["user-123"])
      ∧ (Ffxl.extractUserId (Ffxl.UserArg.user "user-123") = none →
          Ffxl.is_feature_enabled
            ⟨[("admin_panel", ⟨some true, some ["user-123"], none, some ⟨0⟩⟩)]⟩
            "admin_panel" (Ffxl.UserArg.user "user-123") = false) :=
  allowlist_overrides
    ⟨[("admin_panel", ⟨some true, some ["user-123"], none, some ⟨0⟩⟩)]⟩
    "admin_panel" ⟨some true, some ["user-123"], none, some ⟨0⟩⟩
    ["user-123"] (Ffxl.UserArg.user "user-123") rfl rfl (by decide)

/-- C5: with the allow-list not matching, a rollout percentage of 0
evaluates to false for every context, and with the allow-list branch
inactive and the environment gate passing, a rollout percentage of 100
evaluates to true for every context with a known userId. -/
theorem boundary_percentages (name : String) (f g : Ffxl.Feature)
    (ctx ctx2 : FfxlP.EvalContext) (u : String)
    (hf0 : f.rollout = some ⟨0⟩)
    (hfa : FfxlP.allowMatch f ctx.userId = false)
    (hg100 : g.rollout = some ⟨100⟩)
    (hga : FfxlP.allowListActive g = false)
    (hgu : ctx2.userId = some u)
    (hge : FfxlP.envGateBlocks g ctx2 = false) :
    (FfxlP.evaluate name f ctx).1 = false
      ∧ (FfxlP.evaluate name g ctx2).1 = true := by
  constructor
  · unfold FfxlP.evaluate
    by_cases hA : FfxlP.allowListActive f = true
    · have hm : Ffxl.uidMember ctx.userId (f.onlyForUserIds.getD []) = false := by
        unfold FfxlP.allowMatch at hfa
        rw [hA] at hfa
        simpa using hfa
      simp [hA, hm]
    · simp only [Bool.not_eq_true] at hA
      by_cases hE : FfxlP.envGateBlocks f ctx = true
      · simp [hA, hE]
      · simp only [Bool.not_eq_true] at hE
        cases hu : ctx.userId with
        | none => simp [hA, hE, hf0, hu]
        | some v => simp [hA, hE, hf0, hu]
  · have hb : FfxlP.bucket name u < 100 := by
      unfold FfxlP.bucket
      exact Nat.mod_lt _ (by norm_num)
    simp [FfxlP.evaluate, hga, hge, hg100, hgu, hb]

/-- Witness for C5 at concrete zero and full rollouts. -/
theorem boundary_percentages_witness :
    (FfxlP.evaluate "experimental_feature"
        ⟨some true, none, none, some ⟨0⟩⟩ ⟨some "customer-1", none⟩).1 = false
      ∧ (FfxlP.evaluate "experimental_feature"
          ⟨none, none, none, some ⟨100⟩⟩ ⟨some "customer-1", none⟩).1 = true :=
  boundary_percentages "experimental_feature"
    ⟨some true, none, none, some ⟨0⟩⟩ ⟨none, none, none, some ⟨100⟩⟩
    ⟨some "customer-1", none⟩ ⟨some "customer-1", none⟩ "customer-1"
    rfl rfl rfl rfl rfl rfl

/-- C6: evaluation is deterministic: the result of is_feature_enabled is
a pure function of the snapshot, the feature name and the extracted
identity, so two calls whose user arguments carry the same identity, in
any representation, return the same boolean. -/
theorem evaluation_deterministic (cfg : Ffxl.Config) (name : String)
    (u1 u2 : Ffxl.UserArg)
    (h : Ffxl.extractUserId u1 = Ffxl.extractUserId u2) :
    Ffxl.is_feature_enabled cfg name u1 = Ffxl.is_feature_enabled cfg name u2 := by
  unfold Ffxl.is_feature_enabled
  rw [h]

/-- Witness for C6: a User object and a dict carrying the same identity
evaluate identically on a concrete snapshot. -/
theorem evaluation_deterministic_witness :
    Ffxl.is_feature_enabled
        ⟨[("admin_panel", ⟨none, some ["user-123"], none, none⟩)]⟩
        "admin_panel" (Ffxl.UserArg.user "user-123")
      = Ffxl.is_feature_enabled
        ⟨[("admin_panel", ⟨none, some ["user-123"], none, none⟩)]⟩
        "admin_panel" (Ffxl.UserArg.dict [("user_id", "user-123")]) :=
  evaluation_deterministic
    ⟨[("admin_panel", ⟨none, some ["user-123"], none, none⟩)]⟩
    "admin_panel" (Ffxl.UserArg.user "user-123")
    (Ffxl.UserArg.dict [("user_id", "user-123")]) rfl

/-- C7: a feature name outside the snapshot mapping makes
is_feature_enabled return false and feature_exists return false, for
every user argument; both embedded functions are total, so no error can
be raised. -/
theorem unknown_feature_safe (cfg : Ffxl.Config) (name : String)
    (user : Ffxl.UserArg) (h : Ffxl.lookupFeature cfg name = none) :
    Ffxl.is_feature_enabled cfg name user = false
      ∧ Ffxl.feature_exists cfg name = false := by
  constructor
  · simp [Ffxl.is_feature_enabled, h]
  · simp [Ffxl.feature_exists, h]

/-- Witness for C7 at a concrete snapshot and unknown name. -/
theorem unknown_feature_safe_witness :
    Ffxl.is_feature_enabled
        ⟨[("new_dashboard", ⟨some true, none, none, none⟩)]⟩
        "does_not_exist" Ffxl.UserArg.noUser = false
      ∧ Ffxl.feature_exists
        ⟨[("new_dashboard", ⟨some true, none, none, none⟩)]⟩
        "does_not_exist" = false :=
  unknown_feature_safe
    ⟨[("new_dashboard", ⟨some true, none, none, none⟩)]⟩
    "does_not_exist" Ffxl.UserArg.noUser (by decide)

/-- Folding dict insertion over fresh, pairwise distinct keys appends the
corresponding entries in input order. -/
theorem foldl_insertDict_fresh (f : String → Bool) :
    ∀ (names : List String) (d : List (String × Bool)),
      names.Nodup → (∀ n ∈ names, ∀ p ∈ d, p.1 ≠ n) →
      names.foldl (fun acc n => Ffxl.insertDict acc n (f n)) d
        = d ++ names.map (fun n => (n, f n)) := by
  intro names
  induction names with
  | nil =>
    intro d _ _
    simp
  | cons n ns ih =>
    intro d hnd hfresh
    have hc : d.any (fun p => p.1 = n) = false := by
      rw [List.any_eq_false]
      intro p hp
      simpa using hfresh n (List.mem_cons_self n ns) p hp
    have hstep : Ffxl.insertDict d n (f n) = d ++ [(n, f n)] := by
      unfold Ffxl.insertDict
      rw [hc]
      simp
    rw [List.foldl_cons, hstep,
      ih (d ++ [(n, f n)]) (List.Nodup.of_cons hnd) ?_]
    · simp
    · intro m hm p hp
      rcases List.mem_append.mp hp with hpd | hpn
      · exact hfresh m (List.mem_cons_of_mem n hm) p hpd
      · have hpe : p = (n, f n) := by simpa using hpn
        have hnm : n ∉ ns := (List.nodup_cons.mp hnd).1
        rw [hpe]
        intro hcontra
        exact hnm (show n ∈ ns from by rw [show n = m from hcontra]; exact hm)

/-- C8: for pairwise distinct names, get_feature_flags returns exactly
the list pairing each requested name with its is_feature_enabled value,
keys in the same order as the input sequence. -/
theorem batch_consistency (cfg : Ffxl.Config) (names : List String)
    (user : Ffxl.UserArg) (h : names.Nodup) :
    Ffxl.get_feature_flags cfg names user
      = names.map (fun n => (n, Ffxl.is_feature_enabled cfg n user)) := by
  have hfold := foldl_insertDict_fresh
    (fun n => Ffxl.is_feature_enabled cfg n user) names [] h (by simp)
  simpa [Ffxl.get_feature_flags] using hfold

/-- Witness for C8 on the two-name batch of the spec. -/
theorem batch_consistency_witness :
    Ffxl.get_feature_flags
        ⟨[("a", ⟨some true, none, none, none⟩)]⟩ ["a", "b"] Ffxl.UserArg.noUser
      = List.map
          (fun n => (n, Ffxl.is_feature_enabled
            ⟨[("a", ⟨some true, none, none, none⟩)]⟩ n Ffxl.UserArg.noUser))
          ["a", "b"] :=
  batch_consistency ⟨[("a", ⟨some true, none, none, none⟩)]⟩ ["a", "b"]
    Ffxl.UserArg.noUser (by decide)

/-- C9: is_any_feature_enabled is true exactly when some listed name
evaluates true, are_all_features_enabled is true exactly when every
listed name evaluates true; on the empty list the former is false and
the latter is true. -/
theorem any_all_semantics (cfg : Ffxl.Config) (names : List String)
    (user : Ffxl.UserArg) :
    (Ffxl.is_any_feature_enabled cfg names user = true
        ↔ ∃ n ∈ names, Ffxl.is_feature_enabled cfg n user = true)
      ∧ (Ffxl.are_all_features_enabled cfg names user = true
        ↔ ∀ n ∈ names, Ffxl.is_feature_enabled cfg n user = true)
      ∧ Ffxl.is_any_feature_enabled cfg [] user = false
      ∧ Ffxl.are_all_features_enabled cfg [] user = true := by
  refine ⟨?_, ?_, rfl, rfl⟩
  · simp [Ffxl.is_any_feature_enabled, List.any_eq_true]
  · simp [Ffxl.are_all_features_enabled, List.all_eq_true]

/-- C10: a dict without a user_id key, a value of any other type (with
either truthiness), and the Python None all evaluate exactly as passing
no user: the identity is treated as absent.  The remaining falsy values
are covered: a falsy dict is the empty dict, which has no user_id key,
and no User instance is falsy. -/
theorem degenerate_user_as_absent (cfg : Ffxl.Config) (name : String)
    (user : Ffxl.UserArg)
    (h : (∃ entries, user = Ffxl.UserArg.dict entries
            ∧ entries.find? (fun p => p.1 = "user_id") = none)
        ∨ (∃ t, user = Ffxl.UserArg.other t)
        ∨ user = Ffxl.UserArg.noUser) :
    Ffxl.is_feature_enabled cfg name user
      = Ffxl.is_feature_enabled cfg name Ffxl.UserArg.noUser := by
  have hx : Ffxl.extractUserId user = none := by
    rcases h with ⟨entries, he, hfind⟩ | ⟨t, ht⟩ | hn
    · rw [he]
      simp [Ffxl.extractUserId, hfind]
    · rw [ht]
      rfl
    · rw [hn]
      rfl
  unfold Ffxl.is_feature_enabled
  rw [hx]
  rfl

/-- Witness for C10: a dict missing the user_id key behaves as no user. -/
theorem degenerate_user_as_absent_witness :
    Ffxl.is_feature_enabled
        ⟨[("beta_feature", ⟨some true, some ["u1"], none, none⟩)]⟩
        "beta_feature" (Ffxl.UserArg.dict [("name", "alice")])
      = Ffxl.is_feature_enabled
        ⟨[("beta_feature", ⟨some true, some ["u1"], none, none⟩)]⟩
        "beta_feature" Ffxl.UserArg.noUser :=
  degenerate_user_as_absent
    ⟨[("beta_feature", ⟨some true, some ["u1"], none, none⟩)]⟩
    "beta_feature" (Ffxl.UserArg.dict [("name", "alice")])
    (Or.inl ⟨[("name", "alice")], rfl, by decide⟩)
